import Mathlib

set_option linter.unusedVariables false

/-!
Shallow embedding of the habit-tracking backend (Express + Drizzle/Postgres).

Tables are lists of rows in insertion order; `uuid` primary keys are modelled
as naturals drawn from a fresh-id counter, `timestamp` columns as naturals,
SQL `NULL`-able columns as `Option`.  Each controller becomes a function from
the database state (plus the authenticated actor id and the validated request
body) to the new state and the HTTP response it sends.  A thrown `Error` with
a `status` is an `ErrResp`; `db.transaction` rollback is modelled by returning
the original state on the error path.
-/

namespace HabitApi

/-- Row of the `users` table (`src/db/schema.js`). -/
structure User where
  id : Nat
  email : String
  userName : String
  password : String
  firstName : Option String
  lastName : Option String
  createdAt : Nat
  updatedAt : Nat
  deletedAt : Option Nat
deriving DecidableEq

/-- Row of the `habits` table.  `userId` is a nullable foreign key. -/
structure Habit where
  id : Nat
  userId : Option Nat
  name : String
  description : Option String
  frequency : Option String
  targetCount : Option Int
  isActive : Bool
  createdAt : Nat
  updatedAt : Nat
  deletedAt : Option Nat
deriving DecidableEq

/-- Row of the `entries` table. -/
structure Entry where
  id : Nat
  habitId : Option Nat
  completionDate : Nat
  note : Option String
  createdAt : Nat
deriving DecidableEq

/-- Row of the `tags` table.  `createdById = none` is a system tag. -/
structure Tag where
  id : Nat
  name : String
  color : String
  createdById : Option Nat
  createdAt : Nat
  updatedAt : Nat
  deletedAt : Option Nat
deriving DecidableEq

/-- Row of the `habit_tags` association table. -/
structure HabitTag where
  id : Nat
  habitId : Option Nat
  tagId : Option Nat
  createdAt : Nat
  deletedAt : Option Nat
deriving DecidableEq

/-- The whole database, plus a fresh-id counter standing for `defaultRandom()`
and the clock used for `new Date()` / `defaultNow()`. -/
structure DB where
  users : List User
  habits : List Habit
  entries : List Entry
  tags : List Tag
  habitTags : List HabitTag
  nextId : Nat
  now : Nat
deriving DecidableEq

/-- A thrown request error: HTTP status plus message. -/
structure ErrResp where
  status : Nat
  message : String
deriving DecidableEq

/-! ## Aggregation Engine

`getAllUserHabits`, `getHabitById`, `getHabitsByTag` and `updateHabit` all run
the same flat-rows-to-nested-objects loop over the rows of
`habits LEFT JOIN habit_tags LEFT JOIN tags`. -/

/-- One flat row of the left join: the `row.habits` projection plus the
nullable `row.tags` projection (`row.tags?.id` is non-null exactly when the
`Option` is `some`, uuids being non-empty strings). -/
structure JoinRow where
  habit : Habit
  tag : Option Tag
deriving DecidableEq

/-- One value of the controllers' `habitsMap`: the habit projection of the
first row seen for this `key = habit.id`, plus the accumulated `tags` list. -/
structure AggEntry where
  key : Nat
  habit : Habit
  tags : List Tag
deriving DecidableEq

/-- One iteration of the `result.forEach((row) => ...)` loop: insert the
parent on first sight of its id, then push the tag projection if non-null. -/
def aggStep (acc : List AggEntry) (row : JoinRow) : List AggEntry :=
  let acc1 := if acc.any (fun e => e.key = row.habit.id) then acc
              else acc ++ [{ key := row.habit.id, habit := row.habit, tags := [] }]
  match row.tag with
  | none => acc1
  | some t => acc1.map (fun e =>
      if e.key = row.habit.id then { e with tags := e.tags ++ [t] } else e)

/-- The full aggregation loop; the `Map`'s values in insertion order. -/
def aggregate (rows : List JoinRow) : List AggEntry :=
  rows.foldl aggStep []

/-- SQL `tags LEFT JOIN` step for a single `habit_tags` row: all matching tag
rows, or a single `NULL` if none matches. -/
def joinTags (ts : List Tag) (ht : HabitTag) : List (Option Tag) :=
  let ms := ts.filter (fun t => ht.tagId = some t.id)
  if ms.isEmpty then [none] else ms.map some

/-- Left join of one habit row with `habit_tags` and then `tags`. -/
def rowsForHabit (s : DB) (h : Habit) : List JoinRow :=
  let hts := s.habitTags.filter (fun ht => ht.habitId = some h.id)
  if hts.isEmpty then [{ habit := h, tag := none }]
  else hts.flatMap (fun ht => (joinTags s.tags ht).map (fun t => { habit := h, tag := t }))

/-- The controllers' select:
`habits LEFT JOIN habit_tags LEFT JOIN tags WHERE pred(habits)` (the `WHERE`
only constrains `habits` columns, so it commutes with the joins). -/
def habitJoin (s : DB) (pred : Habit → Bool) : List JoinRow :=
  (s.habits.filter pred).flatMap (rowsForHabit s)

/-! ## Scoping predicates -/

/-- The `where` used by every scoped habit query:
`id = habitId AND userId = actor AND deletedAt IS NULL`. -/
def habitScope (uid hid : Nat) (h : Habit) : Bool :=
  h.id = hid && h.userId = some uid && h.deletedAt = none

/-- The `where` of `getAllUserHabits`: `userId = actor AND deletedAt IS NULL`. -/
def habitOwnedLive (uid : Nat) (h : Habit) : Bool :=
  h.userId = some uid && h.deletedAt = none

/-- The tag read filter of `getUserTags`:
`(createdById = actor OR createdById IS NULL) AND deletedAt IS NULL`. -/
def tagReadScope (uid : Nat) (t : Tag) : Bool :=
  (t.createdById = some uid || t.createdById = none) && t.deletedAt = none

/-! ## Habit controllers (`src/controllers/habitController.js`) -/

/-- Validated `PATCH /api/habits/:id` body minus `tagIds`
(the `const { tagIds, ...updates } = req.body` rest object). -/
structure HabitPatch where
  name : Option String
  description : Option String
  frequency : Option String
  targetCount : Option Int
  isActive : Option Bool
deriving DecidableEq

/-- The `{}` rest object: no scalar field present. -/
def HabitPatch.empty : HabitPatch :=
  { name := none, description := none, frequency := none,
    targetCount := none, isActive := none }

/-- The `Object.keys(updates).length > 0` test. -/
def HabitPatch.nonEmpty (p : HabitPatch) : Bool :=
  p.name.isSome || p.description.isSome || p.frequency.isSome ||
    p.targetCount.isSome || p.isActive.isSome

/-- Apply `.set({ ...updates })` to one habit row; `updatedAt` is refreshed by
the schema's `$onUpdate(() => new Date())`. -/
def applyPatch (p : HabitPatch) (now : Nat) (h : Habit) : Habit :=
  { h with
    name := p.name.getD h.name
    description := match p.description with | some d => some d | none => h.description
    frequency := match p.frequency with | some f => some f | none => h.frequency
    targetCount := match p.targetCount with | some c => some c | none => h.targetCount
    isActive := p.isActive.getD h.isActive
    updatedAt := now }

/-- The `habit_tags` rows built by `tagIds.map((id) => ({habitId, tagId: id}))`
and inserted in list order, with fresh primary keys from `base` on. -/
def mkHabitTags (base hid now : Nat) : List Nat → List HabitTag
  | [] => []
  | a :: as =>
    { id := base, habitId := some hid, tagId := some a,
      createdAt := now, deletedAt := none } :: mkHabitTags (base + 1) hid now as

/-- Validated `POST /api/habits` body. -/
structure CreateHabitReq where
  name : String
  description : Option String
  frequency : String
  targetCount : Int
  isActive : Option Bool
  tagIds : Option (List Nat)
deriving DecidableEq

/-- The `createNewHabit` controller: one transaction inserting the habit row
and, when `tagIds && tagIds.length > 0`, one `habit_tags` row per id in the
order given (no dedup).  Returns the new state and the inserted habit
(`res.json({ habit: result })`). -/
def createNewHabit (s : DB) (uid : Nat) (r : CreateHabitReq) : DB × Habit :=
  let h : Habit :=
    { id := s.nextId
      userId := some uid
      name := r.name
      -- the body spread uses `...(description && { description })`,
      -- so an empty string is dropped and the column stays NULL
      description := match r.description with
        | some d => if d = "" then none else some d
        | none => none
      frequency := some r.frequency
      targetCount := some r.targetCount
      isActive := r.isActive.getD true
      createdAt := s.now
      updatedAt := s.now
      deletedAt := none }
  let tagRows := match r.tagIds with
    | some l => if l.length > 0 then mkHabitTags (s.nextId + 1) h.id s.now l else []
    | none => []
  ({ s with habits := s.habits ++ [h]
            habitTags := s.habitTags ++ tagRows
            nextId := s.nextId + 1 + tagRows.length }, h)

/-- The re-select + aggregation + `habitsMap.get(habitId)` shared by
`getHabitById` and the tail of `updateHabit`.  `none` is the 404 case. -/
def habitDetails (s : DB) (uid hid : Nat) : Option AggEntry :=
  (aggregate (habitJoin s (habitScope uid hid))).find? (fun e => e.key = hid)

/-- The `getHabitById` controller (pure read). -/
def getHabitById (s : DB) (uid hid : Nat) : Option AggEntry :=
  habitDetails s uid hid

/-- The `getAllUserHabits` controller: empty join result is a thrown 404,
otherwise the aggregated nested habits. -/
def getAllUserHabits (s : DB) (uid : Nat) : Except ErrResp (List AggEntry) :=
  let rows := habitJoin s (habitOwnedLive uid)
  if rows.isEmpty then .error ⟨404, "Habits not found"⟩
  else .ok (aggregate rows)

/-- The `updateHabit` controller.  Inside one transaction: the scalar update is
scoped by `habitScope` and aborts everything with a 404 when it matches no row,
but it only runs when some scalar field is present; the `habit_tags` delete is
filtered by `habitId` alone, and the re-insert runs when the supplied list is
non-empty.  Afterwards the habit is re-read and aggregated. -/
def updateHabit (s : DB) (uid hid : Nat) (p : HabitPatch) (tagIds : Option (List Nat)) :
    DB × Except ErrResp (Option AggEntry) :=
  if p.nonEmpty && !(s.habits.any (habitScope uid hid)) then
    -- `throw` inside `db.transaction` rolls the whole transaction back
    (s, .error ⟨404, "habit not found"⟩)
  else
    let habits1 := if p.nonEmpty then
        s.habits.map (fun h => if habitScope uid hid h then applyPatch p s.now h else h)
      else s.habits
    let s1 : DB := { s with habits := habits1 }
    let s2 : DB := match tagIds with
      | none => s1
      | some l =>
        let afterDel : DB :=
          { s1 with habitTags := s1.habitTags.filter (fun ht => !(ht.habitId = some hid)) }
        if l.length > 0 then
          { afterDel with
              habitTags := afterDel.habitTags ++ mkHabitTags afterDel.nextId hid s.now l
              nextId := afterDel.nextId + l.length }
        else afterDel
    (s2, .ok (habitDetails s2 uid hid))

/-- The `deleteHabit` controller: a scoped soft-delete update; the response is
always HTTP 200, with the message chosen by whether a row was returned. -/
def deleteHabit (s : DB) (uid hid : Nat) : DB × String :=
  let habits1 := s.habits.map (fun h =>
    if habitScope uid hid h then { h with deletedAt := some s.now, updatedAt := s.now } else h)
  if s.habits.any (habitScope uid hid) then
    ({ s with habits := habits1 }, "habit deleted successfully")
  else (s, "unable to delete habit")

/-- The `completeHabit` controller: scoped lookup, 404 when absent, 400 when
`isActive` is false, otherwise insert exactly one `entries` row. -/
def completeHabit (s : DB) (uid hid : Nat) (note : Option String) :
    DB × Except ErrResp Entry :=
  match s.habits.find? (habitScope uid hid) with
  | none => (s, .error ⟨404, "habit not found"⟩)
  | some h =>
    if !h.isActive then (s, .error ⟨400, "Cannot complete an inactive habit"⟩)
    else
      let e : Entry :=
        { id := s.nextId
          habitId := some hid
          completionDate := s.now
          -- `...(note && { note })`: empty string is dropped
          note := match note with
            | some n => if n = "" then none else some n
            | none => none
          createdAt := s.now }
      ({ s with entries := s.entries ++ [e], nextId := s.nextId + 1 }, .ok e)

/-! ## Tag controllers (`src/controllers/tagController.js`) -/

/-- The `createdBy` projection of the `tags LEFT JOIN users` selects. -/
structure CreatedBy where
  id : Nat
  firstName : Option String
  lastName : Option String
deriving DecidableEq

/-- The tag projection returned by the tag reads and by `updateTag`. -/
structure TagView where
  id : Nat
  name : String
  color : String
  createdAt : Nat
  updatedAt : Nat
  createdBy : Option CreatedBy
deriving DecidableEq

/-- Shape one tag row through the `LEFT JOIN users` projection (first matching
user row, or a NULL `createdBy`). -/
def tagView (s : DB) (t : Tag) : TagView :=
  { id := t.id, name := t.name, color := t.color,
    createdAt := t.createdAt, updatedAt := t.updatedAt,
    createdBy := match s.users.find? (fun u => t.createdById = some u.id) with
      | some u => some { id := u.id, firstName := u.firstName, lastName := u.lastName }
      | none => none }

/-- The `createTag` controller. -/
def createTag (s : DB) (uid : Nat) (name color : String) : DB × Tag :=
  let t : Tag := { id := s.nextId, name := name, color := color,
                   createdById := some uid, createdAt := s.now,
                   updatedAt := s.now, deletedAt := none }
  ({ s with tags := s.tags ++ [t], nextId := s.nextId + 1 }, t)

/-- The `getUserTags` controller: list read scoped by `tagReadScope`; an empty
result is a thrown "not found" (with the controller's odd `status = 200`). -/
def getUserTags (s : DB) (uid : Nat) : Except ErrResp (List TagView) :=
  let arr := (s.tags.filter (tagReadScope uid)).map (tagView s)
  if arr.isEmpty then .error ⟨200, "user habit tags not found"⟩
  else .ok arr

/-- The `getUserTagById` controller.  Its `where` is `eq(tags.id, tagId)` with
no `createdById` or `deletedAt` condition, so the actor id is never consulted. -/
def getUserTagById (s : DB) (uid tid : Nat) : Except ErrResp TagView :=
  match s.tags.find? (fun t => t.id = tid) with
  | none => .error ⟨404, "tag details not found"⟩
  | some t => .ok (tagView s t)

/-- The `deleteTag` controller: unscoped lookup, then the already-deleted and
system-tag guards, then a soft-delete update scoped to `(id, createdById)`. -/
def deleteTag (s : DB) (uid tid : Nat) : DB × Except ErrResp String :=
  match s.tags.find? (fun t => t.id = tid) with
  | none => (s, .error ⟨404, "habit tag not found"⟩)
  | some t =>
    if t.deletedAt ≠ none then
      (s, .error ⟨400, "habit tag has already been deleted"⟩)
    else if t.createdById = none then
      (s, .error ⟨400, "system default habit tags cannot be deleted by users"⟩)
    else
      let tags1 := s.tags.map (fun t2 =>
        if t2.id = tid && t2.createdById = some uid then { t2 with deletedAt := some s.now } else t2)
      if s.tags.any (fun t2 => t2.id = tid && t2.createdById = some uid) then
        ({ s with tags := tags1 }, .ok "user habit tag deleted successfully")
      else (s, .error ⟨400, "unable to delete habit tag"⟩)

/-- Apply `.set({ ...(name && { name }), ...(color && { color }) })`:
falsy (empty) strings leave the column alone. -/
def applyTagPatch (name color : Option String) (t : Tag) : Tag :=
  { t with
    name := match name with | some n => if n = "" then t.name else n | none => t.name
    color := match color with | some c => if c = "" then t.color else c | none => t.color }

/-- The `updateTag` controller: lookup scoped by `(id, deletedAt IS NULL)`,
the system-tag guard, an update scoped to `(id, createdById)`, then a re-read
of the joined projection. -/
def updateTag (s : DB) (uid tid : Nat) (name color : Option String) :
    DB × Except ErrResp (Option TagView) :=
  match s.tags.find? (fun t => t.id = tid && t.deletedAt = none) with
  | none => (s, .error ⟨404, "habit tag not found"⟩)
  | some t =>
    if t.createdById = none then
      (s, .error ⟨400, "system default habit tags cannot be updated by users"⟩)
    else
      let tags1 := s.tags.map (fun t2 =>
        if t2.id = tid && t2.createdById = some uid then applyTagPatch name color t2 else t2)
      if s.tags.any (fun t2 => t2.id = tid && t2.createdById = some uid) then
        let s1 : DB := { s with tags := tags1 }
        (s1, .ok ((s1.tags.find? (fun t2 => t2.id = tid)).map (tagView s1)))
      else (s, .error ⟨400, "unable to update habit tag"⟩)

/-! ## User and auth controllers
(`src/controllers/userController.js`, `src/controllers/authController.js`)

Password hashing, comparison and JWT issuance are external collaborators and
enter as opaque function parameters. -/

/-- The user object as serialised in a response body.  `password = none`
models the property having been removed by `delete user.password`. -/
structure UserView where
  id : Nat
  email : String
  userName : String
  password : Option String
  firstName : Option String
  lastName : Option String
  createdAt : Nat
  updatedAt : Nat
  deletedAt : Option Nat
deriving DecidableEq

/-- A selected `users` row as a response object, all columns included. -/
def toUserView (u : User) : UserView :=
  { id := u.id, email := u.email, userName := u.userName,
    password := some u.password, firstName := u.firstName, lastName := u.lastName,
    createdAt := u.createdAt, updatedAt := u.updatedAt, deletedAt := u.deletedAt }

/-- The `delete user.password` statement. -/
def stripPassword (v : UserView) : UserView :=
  { v with password := none }

/-- The `register` controller.  The unique constraints on `email`/`username`
surface as Postgres error 23505, translated to a 409. -/
def register (hash : String → String) (tok : UserView → String) (s : DB)
    (email pw userName : String) (firstName lastName : Option String) :
    DB × Except ErrResp (UserView × String) :=
  if s.users.any (fun u => u.email = email || u.userName = userName) then
    (s, .error ⟨409, "Account with this email or username already exists"⟩)
  else
    let u : User :=
      { id := s.nextId, email := email, userName := userName, password := hash pw,
        firstName := some (firstName.getD ""), lastName := some (lastName.getD ""),
        createdAt := s.now, updatedAt := s.now, deletedAt := none }
    let v := stripPassword (toUserView u)
    ({ s with users := s.users ++ [u], nextId := s.nextId + 1 }, .ok (v, tok v))

/-- The `login` controller (pure read). -/
def login (cmp : String → String → Bool) (tok : UserView → String) (s : DB)
    (email pw : String) : Except ErrResp (UserView × String) :=
  match s.users.find? (fun u => u.email = email && u.deletedAt = none) with
  | none => .error ⟨400, "Invalid Credentials"⟩
  | some u =>
    if !cmp pw u.password then .error ⟨400, "Invalid Credentials"⟩
    else
      let v := stripPassword (toUserView u)
      .ok (v, tok v)

/-- The `getUserDetails` controller.  When the row is missing,
`delete userDetails.password` throws a `TypeError`, surfaced as a 500. -/
def getUserDetails (s : DB) (uid : Nat) : Except ErrResp UserView :=
  match s.users.find? (fun u => u.id = uid) with
  | none => .error ⟨500, "internal server error"⟩
  | some u => .ok (stripPassword (toUserView u))

/-- Apply the `updateUser` partial set; `users.updatedAt` has `$onUpdate`. -/
def applyUserPatch (firstName lastName : Option String) (now : Nat) (u : User) : User :=
  { u with
    firstName := match firstName with | some f => some f | none => u.firstName
    lastName := match lastName with | some l => some l | none => u.lastName
    updatedAt := now }

/-- The `updateUser` controller; a vanished row again means the `TypeError`
path (500), with nothing updated. -/
def updateUser (s : DB) (uid : Nat) (firstName lastName : Option String) :
    DB × Except ErrResp UserView :=
  let users1 := s.users.map (fun u =>
    if u.id = uid then applyUserPatch firstName lastName s.now u else u)
  match users1.find? (fun u => u.id = uid) with
  | some u => ({ s with users := users1 }, .ok (stripPassword (toUserView u)))
  | none => (s, .error ⟨500, "internal server error"⟩)

/-! ## Concrete sample data -/

/-- An owned, live, active habit (id 1, owner 2). -/
def habitA : Habit :=
  { id := 1, userId := some 2, name := "run", description := none,
    frequency := some "daily", targetCount := some 1, isActive := true,
    createdAt := 0, updatedAt := 0, deletedAt := none }

/-- An inactive habit (id 3, owner 2). -/
def habitB : Habit :=
  { habitA with id := 3, isActive := false }

/-- A personal tag of user 2. -/
def tagP : Tag :=
  { id := 10, name := "a", color := "c", createdById := some 2,
    createdAt := 0, updatedAt := 0, deletedAt := none }

/-- A second personal tag of user 2. -/
def tagQ : Tag :=
  { tagP with id := 11 }

/-- A system tag (`createdById` NULL). -/
def tagS : Tag :=
  { tagP with id := 12, createdById := none }

/-- A soft-deleted tag of user 1. -/
def tagD : Tag :=
  { tagP with id := 13, createdById := some 1, deletedAt := some 3 }

/-- A live association habit 1 ↔ tag 10. -/
def htA : HabitTag :=
  { id := 5, habitId := some 1, tagId := some 10, createdAt := 0, deletedAt := none }

/-- A user row. -/
def userA : User :=
  { id := 2, email := "u@x", userName := "u", password := "hash",
    firstName := some "f", lastName := some "l",
    createdAt := 0, updatedAt := 0, deletedAt := none }

/-- A sample database. -/
def db0 : DB :=
  { users := [userA], habits := [habitA, habitB], entries := [],
    tags := [tagP, tagQ, tagS, tagD], habitTags := [htA], nextId := 20, now := 7 }

/-- Sample join rows with an interleaved repeated parent. -/
def sampleRows : List JoinRow :=
  [{ habit := habitA, tag := some tagP },
   { habit := habitB, tag := none },
   { habit := habitA, tag := some tagQ }]

/-- A create-habit request that supplies tag id 10 twice. -/
def reqC3 : CreateHabitReq :=
  { name := "n", description := none, frequency := "daily", targetCount := 1,
    isActive := none, tagIds := some [10, 10, 11] }

/-! ## Aggregation Engine lemmas -/

/-- Parent-id column of a row sequence. -/
def parentIds (rows : List JoinRow) : List Nat :=
  rows.map (fun r => r.habit.id)

/-- First occurrences of a key sequence, relative to keys already `seen`. -/
def firstSeenFrom (seen : List Nat) : List Nat → List Nat
  | [] => []
  | k :: ks => if k ∈ seen then firstSeenFrom seen ks else k :: firstSeenFrom (k :: seen) ks

/-- Keys of a sequence, in first-occurrence order, each exactly once. -/
def firstSeen (ks : List Nat) : List Nat :=
  firstSeenFrom [] ks

/-- The child projections of the rows for parent `k` whose child is non-null,
in row order. -/
def childTags (k : Nat) (rows : List JoinRow) : List Tag :=
  (rows.filter (fun r => r.habit.id = k)).filterMap (fun r => r.tag)

/-- Tag list stored under key `k`, or `[]` when `k` is absent. -/
def findTags (acc : List AggEntry) (k : Nat) : List Tag :=
  match acc.find? (fun e => e.key = k) with
  | some e => e.tags
  | none => []

lemma any_key_iff (acc : List AggEntry) (k : Nat) :
    (acc.any (fun e => e.key = k)) = true ↔ k ∈ acc.map AggEntry.key := by
  simp only [List.any_eq_true, List.mem_map, decide_eq_true_eq]

lemma map_key_push (acc : List AggEntry) (k : Nat) (t : Tag) :
    (acc.map (fun e =>
      if e.key = k then { e with tags := e.tags ++ [t] } else e)).map AggEntry.key
      = acc.map AggEntry.key := by
  rw [List.map_map]
  apply List.map_congr_left
  intro e _
  by_cases h : e.key = k <;> simp [h]

lemma aggStep_keys (acc : List AggEntry) (r : JoinRow) :
    (aggStep acc r).map AggEntry.key =
      if r.habit.id ∈ acc.map AggEntry.key then acc.map AggEntry.key
      else acc.map AggEntry.key ++ [r.habit.id] := by
  unfold aggStep
  by_cases h : r.habit.id ∈ acc.map AggEntry.key
  · rw [if_pos h]
    rw [if_pos ((any_key_iff acc r.habit.id).2 h)]
    cases htag : r.tag with
    | none => rfl
    | some t => exact map_key_push acc r.habit.id t
  · rw [if_neg h]
    rw [if_neg (by
      intro hc
      exact h ((any_key_iff acc r.habit.id).1 hc))]
    cases htag : r.tag with
    | none => simp
    | some t =>
      rw [map_key_push]
      simp

lemma firstSeenFrom_congr (ks : List Nat) :
    ∀ s1 s2 : List Nat, (∀ x, x ∈ s1 ↔ x ∈ s2) →
      firstSeenFrom s1 ks = firstSeenFrom s2 ks := by
  induction ks with
  | nil => intro _ _ _; rfl
  | cons k ks ih =>
    intro s1 s2 h
    simp only [firstSeenFrom]
    by_cases hk : k ∈ s1
    · rw [if_pos hk, if_pos ((h k).1 hk)]
      exact ih s1 s2 h
    · rw [if_neg hk, if_neg (fun c => hk ((h k).2 c))]
      have : ∀ x, x ∈ k :: s1 ↔ x ∈ k :: s2 := by
        intro x
        simp only [List.mem_cons]
        exact or_congr Iff.rfl (h x)
      rw [ih (k :: s1) (k :: s2) this]

lemma foldl_aggStep_keys (rows : List JoinRow) :
    ∀ acc : List AggEntry,
      (rows.foldl aggStep acc).map AggEntry.key =
        acc.map AggEntry.key ++ firstSeenFrom (acc.map AggEntry.key) (parentIds rows) := by
  induction rows with
  | nil => intro acc; simp [parentIds, firstSeenFrom]
  | cons r rows ih =>
    intro acc
    rw [List.foldl_cons, ih (aggStep acc r), aggStep_keys]
    simp only [parentIds, List.map_cons, firstSeenFrom]
    by_cases h : r.habit.id ∈ acc.map AggEntry.key
    · rw [if_pos h, if_pos h]
    · rw [if_neg h, if_neg h, List.append_assoc, List.singleton_append]
      have hcg : firstSeenFrom (acc.map AggEntry.key ++ [r.habit.id])
            (rows.map (fun r => r.habit.id))
          = firstSeenFrom (r.habit.id :: acc.map AggEntry.key)
            (rows.map (fun r => r.habit.id)) := by
        apply firstSeenFrom_congr
        intro x
        simp [List.mem_append, List.mem_cons, or_comm]
      rw [hcg]

lemma findTags_nil (k : Nat) : findTags [] k = [] := rfl

lemma find?_push (acc : List AggEntry) (kk k : Nat) (t : Tag) :
    (acc.map (fun e =>
        if e.key = kk then { e with tags := e.tags ++ [t] } else e)).find?
      (fun e => e.key = k)
    = (acc.find? (fun e => e.key = k)).map
        (fun e => if e.key = kk then { e with tags := e.tags ++ [t] } else e) := by
  rw [List.find?_map]
  have h : ((fun e : AggEntry => decide (e.key = k)) ∘
      (fun e : AggEntry => if e.key = kk then { e with tags := e.tags ++ [t] } else e)) =
      (fun e : AggEntry => decide (e.key = k)) := by
    funext e
    by_cases h : e.key = kk <;> simp [h]
  rw [h]

lemma find?_key_eq_none (acc : List AggEntry) (k : Nat)
    (hmem : k ∉ acc.map AggEntry.key) :
    acc.find? (fun e => e.key = k) = none := by
  rw [List.find?_eq_none]
  intro e he hc
  exact hmem (List.mem_map.2 ⟨e, he, by simpa using hc⟩)

lemma find?_key_exists (acc : List AggEntry) (k : Nat)
    (hmem : k ∈ acc.map AggEntry.key) :
    ∃ e, acc.find? (fun e => e.key = k) = some e ∧ e.key = k := by
  have hsome : (acc.find? (fun e => e.key = k)).isSome := by
    rw [List.find?_isSome]
    rcases List.mem_map.1 hmem with ⟨e, he, hk⟩
    exact ⟨e, he, by simp [hk]⟩
  rcases Option.isSome_iff_exists.1 hsome with ⟨e, he⟩
  refine ⟨e, he, ?_⟩
  have := List.find?_some he
  simpa using this

lemma findTags_aggStep (acc : List AggEntry) (r : JoinRow) (k : Nat) :
    findTags (aggStep acc r) k =
      findTags acc k ++ if r.habit.id = k then r.tag.toList else [] := by
  unfold aggStep findTags
  by_cases hmem : r.habit.id ∈ acc.map AggEntry.key
  · rw [if_pos ((any_key_iff acc r.habit.id).2 hmem)]
    cases htag : r.tag with
    | none => simp
    | some t =>
      rw [find?_push]
      by_cases hk : r.habit.id = k
      · subst hk
        rcases find?_key_exists acc r.habit.id hmem with ⟨e, he, hek⟩
        rw [he]
        simp [hek]
      · cases hfind : acc.find? (fun e => e.key = k) with
        | none => simp [hk]
        | some e =>
          have hek : e.key = k := by
            have := List.find?_some hfind
            simpa using this
          have hne : ¬(e.key = r.habit.id) := by
            rw [hek]; exact fun c => hk c.symm
          simp [hne, hk]
  · rw [if_neg (fun c => hmem ((any_key_iff acc r.habit.id).1 c))]
    have hnone := find?_key_eq_none acc r.habit.id hmem
    cases htag : r.tag with
    | none =>
      dsimp only
      rw [List.find?_append]
      by_cases hk : r.habit.id = k
      · subst hk
        rw [hnone]
        simp
      · cases hfind : acc.find? (fun e => e.key = k) with
        | none => simp [hk]
        | some e => simp
    | some t =>
      dsimp only
      rw [List.map_append, List.find?_append, find?_push]
      by_cases hk : r.habit.id = k
      · subst hk
        rw [hnone]
        simp
      · cases hfind : acc.find? (fun e => e.key = k) with
        | none => simp [hk]
        | some e =>
          have hek : e.key = k := by
            have := List.find?_some hfind
            simpa using this
          have hne : ¬(e.key = r.habit.id) := by
            rw [hek]
            exact fun c => hk c.symm
          simp [hne, hk]

lemma childTags_cons (k : Nat) (r : JoinRow) (rows : List JoinRow) :
    childTags k (r :: rows) =
      (if r.habit.id = k then r.tag.toList else []) ++ childTags k rows := by
  unfold childTags
  rw [List.filter_cons]
  by_cases h : r.habit.id = k
  · rw [if_pos (by simpa using h), if_pos h, List.filterMap_cons]
    cases r.tag <;> simp
  · rw [if_neg (by simpa using h), if_neg h, List.nil_append]

lemma findTags_foldl (rows : List JoinRow) :
    ∀ (acc : List AggEntry) (k : Nat),
      findTags (rows.foldl aggStep acc) k = findTags acc k ++ childTags k rows := by
  induction rows with
  | nil => intro acc k; simp [childTags]
  | cons r rows ih =>
    intro acc k
    rw [List.foldl_cons, ih, findTags_aggStep, childTags_cons, List.append_assoc]

lemma firstSeenFrom_not_mem_seen (ks : List Nat) :
    ∀ seen x, x ∈ firstSeenFrom seen ks → x ∉ seen := by
  induction ks with
  | nil => intro seen x h; cases h
  | cons k ks ih =>
    intro seen x h
    by_cases hk : k ∈ seen
    · rw [firstSeenFrom, if_pos hk] at h
      exact ih seen x h
    · rw [firstSeenFrom, if_neg hk] at h
      rcases List.mem_cons.1 h with rfl | h2
      · exact hk
      · intro hc
        exact ih (k :: seen) x h2 (List.mem_cons_of_mem k hc)

lemma firstSeenFrom_nodup (ks : List Nat) :
    ∀ seen, (firstSeenFrom seen ks).Nodup := by
  induction ks with
  | nil => intro _; exact List.nodup_nil
  | cons k ks ih =>
    intro seen
    by_cases hk : k ∈ seen
    · rw [firstSeenFrom, if_pos hk]; exact ih seen
    · rw [firstSeenFrom, if_neg hk]
      refine List.nodup_cons.2 ⟨?_, ih (k :: seen)⟩
      intro hc
      exact firstSeenFrom_not_mem_seen ks (k :: seen) k hc (List.mem_cons_self k seen)

lemma find?_of_mem_nodupKeys (l : List AggEntry) (e : AggEntry)
    (hnd : (l.map AggEntry.key).Nodup) (he : e ∈ l) :
    l.find? (fun x => x.key = e.key) = some e := by
  induction l with
  | nil => cases he
  | cons a l ih =>
    rw [List.map_cons, List.nodup_cons] at hnd
    rcases List.mem_cons.1 he with rfl | hmem
    · exact List.find?_cons_of_pos l (by simp)
    · have hka : ¬(a.key = e.key) := by
        intro heq
        exact hnd.1 (heq ▸ List.mem_map_of_mem AggEntry.key hmem)
      rw [List.find?_cons_of_neg l (by simpa using hka)]
      exact ih hnd.2 hmem

/-- C4: for every sequence of flat left-join rows, the aggregation yields each
parent id exactly once, in first-occurrence order of the parent id in the row
sequence, and each produced entry's tags list is exactly the non-null child
projections of that parent's rows, in row order. -/
theorem aggregation_first_seen_order (rows : List JoinRow) :
    (aggregate rows).map AggEntry.key = firstSeen (parentIds rows)
  ∧ ((aggregate rows).map AggEntry.key).Nodup
  ∧ ∀ e ∈ aggregate rows, e.tags = childTags e.key rows := by
  have hkeys : (aggregate rows).map AggEntry.key = firstSeen (parentIds rows) := by
    have h := foldl_aggStep_keys rows []
    simpa [aggregate, firstSeen] using h
  have hnd : ((aggregate rows).map AggEntry.key).Nodup := by
    rw [hkeys]
    exact firstSeenFrom_nodup (parentIds rows) []
  refine ⟨hkeys, hnd, ?_⟩
  intro e he
  have h1 : (aggregate rows).find? (fun x => x.key = e.key) = some e :=
    find?_of_mem_nodupKeys (aggregate rows) e hnd he
  have h2 := findTags_foldl rows [] e.key
  rw [findTags_nil, List.nil_append] at h2
  have h3 : findTags (aggregate rows) e.key = e.tags := by
    unfold findTags
    rw [h1]
  calc e.tags = findTags (aggregate rows) e.key := h3.symm
    _ = childTags e.key rows := h2

/-! ## Helper lemmas for single-habit reads -/

lemma firstSeenFrom_all_seen (ks : List Nat) :
    ∀ seen, (∀ x ∈ ks, x ∈ seen) → firstSeenFrom seen ks = [] := by
  induction ks with
  | nil => intro _ _; rfl
  | cons k ks ih =>
    intro seen hall
    rw [firstSeenFrom, if_pos (hall k (List.mem_cons_self k ks))]
    exact ih seen (fun x hx => hall x (List.mem_cons_of_mem k hx))

lemma firstSeen_const (ks : List Nat) (k : Nat) (hne : ks ≠ [])
    (hall : ∀ x ∈ ks, x = k) : firstSeen ks = [k] := by
  cases ks with
  | nil => exact absurd rfl hne
  | cons k0 ks =>
    have hk0 : k0 = k := hall k0 (List.mem_cons_self k0 ks)
    subst hk0
    unfold firstSeen firstSeenFrom
    rw [if_neg (List.not_mem_nil k0)]
    rw [firstSeenFrom_all_seen ks (k0 :: []) (fun x hx => by
      rw [hall x (List.mem_cons_of_mem k0 hx)]
      exact List.mem_cons_self k0 [])]

lemma map_key_singleton (l : List AggEntry) (k : Nat)
    (h : l.map AggEntry.key = [k]) : ∃ e, l = [e] ∧ e.key = k := by
  cases l with
  | nil => simp at h
  | cons e l2 =>
    rw [List.map_cons] at h
    injection h with h1 h2
    rcases List.map_eq_nil_iff.1 h2 with rfl
    exact ⟨e, rfl, h1⟩

/-- When every row carries the same parent id `k` and there is at least one
row, the aggregation produces exactly one entry, keyed `k`, whose tags are all
the non-null child projections in row order. -/
lemma habit_read_single (rows : List JoinRow) (k : Nat)
    (hne : rows ≠ []) (hall : ∀ r ∈ rows, r.habit.id = k) :
    ∃ e, (aggregate rows).find? (fun x => x.key = k) = some e
       ∧ e.tags = rows.filterMap JoinRow.tag := by
  have hkeys : (aggregate rows).map AggEntry.key = [k] := by
    have h := foldl_aggStep_keys rows []
    rw [List.map_nil, List.nil_append] at h
    rw [aggregate, h]
    apply firstSeen_const
    · intro hc
      exact hne (List.map_eq_nil_iff.1 hc)
    · intro x hx
      rcases List.mem_map.1 hx with ⟨r, hr, rfl⟩
      exact hall r hr
  rcases map_key_singleton (aggregate rows) k hkeys with ⟨e, heq, hek⟩
  refine ⟨e, ?_, ?_⟩
  · rw [heq]
    exact List.find?_cons_of_pos [] (by simp [hek])
  · have h2 := findTags_foldl rows [] k
    rw [findTags_nil, List.nil_append] at h2
    have h3 : findTags (aggregate rows) k = e.tags := by
      unfold findTags
      rw [heq, List.find?_cons_of_pos [] (by simp [hek])]
    have h4 : childTags k rows = rows.filterMap JoinRow.tag := by
      unfold childTags
      rw [List.filter_eq_self.2 (fun r hr => by simp [hall r hr])]
    rw [← h3, ← h4]
    exact h2

lemma habitScope_of_id_ne (uid hid : Nat) (h : Habit) (hne : h.id ≠ hid) :
    habitScope uid hid h = false := by
  simp [habitScope, hne]

lemma habitScope_id (uid hid : Nat) (h : Habit) (hsc : habitScope uid hid h = true) :
    h.id = hid := by
  simp only [habitScope, Bool.and_eq_true, decide_eq_true_eq] at hsc
  exact hsc.1.1

lemma habitScope_applyPatch (p : HabitPatch) (now uid hid : Nat) (h : Habit) :
    habitScope uid hid (applyPatch p now h) = habitScope uid hid h := rfl

/-- A first match on `p` that also satisfies `q` is the first match on
`p && q`. -/
lemma find?_and_of_find? {α : Type} (l : List α) (p q : α → Bool) (t : α)
    (h : l.find? p = some t) (hq : q t = true) :
    l.find? (fun x => p x && q x) = some t := by
  induction l with
  | nil => simp at h
  | cons a l ih =>
    by_cases hp : p a = true
    · rw [List.find?_cons_of_pos l hp] at h
      injection h with h
      subst h
      exact List.find?_cons_of_pos l (by rw [hp, hq]; rfl)
    · rw [List.find?_cons_of_neg l hp] at h
      rw [List.find?_cons_of_neg l (by simp [hp])]
      exact ih h

/-! ## Claim theorems -/

/-- C4 witness: the aggregation property evaluated at a concrete interleaved
row sequence. -/
theorem aggregation_first_seen_order_witness :
    (aggregate sampleRows).map AggEntry.key = firstSeen (parentIds sampleRows)
  ∧ ((aggregate sampleRows).map AggEntry.key).Nodup :=
  ⟨(aggregation_first_seen_order sampleRows).1,
   (aggregation_first_seen_order sampleRows).2.1⟩

/-- C8: completing a habit that exists, is owned by the actor and is live but
has `isActive = false` always fails with the distinct 400 "Cannot complete an
inactive habit" error — not the 404 "habit not found" — and leaves the state
(in particular the entries table) unchanged. -/
theorem complete_inactive_habit (s : DB) (uid hid : Nat) (note : Option String)
    (h0 : Habit)
    (hfind : s.habits.find? (habitScope uid hid) = some h0)
    (hinactive : h0.isActive = false) :
    completeHabit s uid hid note = (s, .error ⟨400, "Cannot complete an inactive habit"⟩)
  ∧ (completeHabit s uid hid note).1.entries = s.entries
  ∧ ErrResp.mk 400 "Cannot complete an inactive habit" ≠ ErrResp.mk 404 "habit not found" := by
  have h1 : completeHabit s uid hid note
      = (s, .error ⟨400, "Cannot complete an inactive habit"⟩) := by
    unfold completeHabit
    rw [hfind]
    dsimp only
    rw [hinactive]
    rfl
  exact ⟨h1, by rw [h1], by decide⟩

/-- C8 witness: the inactive habit 3 of `db0`. -/
theorem complete_inactive_habit_witness :
    completeHabit db0 2 3 none = (db0, .error ⟨400, "Cannot complete an inactive habit"⟩)
  ∧ (completeHabit db0 2 3 none).1.entries = db0.entries := by
  have h := complete_inactive_habit db0 2 3 none habitB (by decide) (by decide)
  exact ⟨h.1, h.2.1⟩

/-- C9: a successful completion (habit exists, owned, live, active) appends
exactly one new Entry row whose `habitId` is the target habit, and leaves the
habits table — hence the habit row with all its fields — unchanged, as well as
every other table. -/
theorem complete_active_habit (s : DB) (uid hid : Nat) (note : Option String)
    (h0 : Habit)
    (hfind : s.habits.find? (habitScope uid hid) = some h0)
    (hactive : h0.isActive = true) :
    ∃ e : Entry,
      (completeHabit s uid hid note).2 = .ok e
    ∧ (completeHabit s uid hid note).1.entries = s.entries ++ [e]
    ∧ e.habitId = some hid
    ∧ (completeHabit s uid hid note).1.habits = s.habits
    ∧ (completeHabit s uid hid note).1.habitTags = s.habitTags
    ∧ (completeHabit s uid hid note).1.tags = s.tags
    ∧ (completeHabit s uid hid note).1.users = s.users := by
  have h1 : completeHabit s uid hid note =
      ({ s with
          entries := s.entries ++ [{
            id := s.nextId, habitId := some hid, completionDate := s.now,
            note := match note with
              | some n => if n = "" then none else some n
              | none => none,
            createdAt := s.now }],
          nextId := s.nextId + 1 },
       .ok { id := s.nextId, habitId := some hid, completionDate := s.now,
             note := match note with
               | some n => if n = "" then none else some n
               | none => none,
             createdAt := s.now }) := by
    unfold completeHabit
    rw [hfind]
    dsimp only
    rw [hactive]
    rfl
  exact ⟨_, by rw [h1], by rw [h1], rfl, by rw [h1], by rw [h1], by rw [h1], by rw [h1]⟩

/-- C9 witness: completing the active habit 1 of `db0` adds one entry and
leaves the habits table unchanged. -/
theorem complete_active_habit_witness :
    (completeHabit db0 2 1 (some "w")).1.habits = db0.habits
  ∧ (completeHabit db0 2 1 (some "w")).1.entries.length = db0.entries.length + 1 := by
  obtain ⟨e, h1, h2, h3, h4, h5⟩ :=
    complete_active_habit db0 2 1 (some "w") habitA (by decide) (by decide)
  refine ⟨h4, ?_⟩
  rw [h2]
  simp

/-- C2 counterexample: in `db0`, after the first (successful) delete of habit
1, deleting it again yields HTTP 200 with message "unable to delete habit" —
byte-for-byte the same response as deleting id 99, which never existed; no
distinct already-deleted condition is reported. -/
theorem habit_double_delete_counterexample :
    (deleteHabit db0 2 1).2 = "habit deleted successfully"
  ∧ (deleteHabit (deleteHabit db0 2 1).1 2 1).2 = "unable to delete habit"
  ∧ (deleteHabit (deleteHabit db0 2 1).1 2 1).2
      = (deleteHabit (deleteHabit db0 2 1).1 2 99).2
  ∧ db0.habits.all (fun h => !(h.id = 99)) = true := by decide

/-- C2 amended: deleting an owned live habit succeeds; the second delete of
the same id is a state no-op answered with HTTP 200 and the message "unable to
delete habit" — the same response a nonexistent id receives — rather than a
distinct already-deleted condition. -/
theorem habit_double_delete (s : DB) (uid hid : Nat) (h0 : Habit)
    (hmem : h0 ∈ s.habits) (hsc : habitScope uid hid h0 = true) :
    (deleteHabit s uid hid).2 = "habit deleted successfully"
  ∧ (deleteHabit (deleteHabit s uid hid).1 uid hid).2 = "unable to delete habit"
  ∧ (deleteHabit (deleteHabit s uid hid).1 uid hid).1 = (deleteHabit s uid hid).1 := by
  have hany : s.habits.any (habitScope uid hid) = true :=
    List.any_eq_true.2 ⟨h0, hmem, hsc⟩
  have h1 : deleteHabit s uid hid =
      ({ s with habits := s.habits.map (fun h =>
          if habitScope uid hid h then { h with deletedAt := some s.now, updatedAt := s.now }
          else h) },
       "habit deleted successfully") := by
    unfold deleteHabit
    rw [if_pos hany]
  have hany2 : (s.habits.map (fun h =>
      if habitScope uid hid h then { h with deletedAt := some s.now, updatedAt := s.now }
      else h)).any (habitScope uid hid) = false := by
    rw [Bool.eq_false_iff]
    intro hc
    rcases List.any_eq_true.1 hc with ⟨h2, hh, hsc2⟩
    rcases List.mem_map.1 hh with ⟨h, hh2, rfl⟩
    by_cases hc2 : habitScope uid hid h = true
    · rw [if_pos hc2] at hsc2
      simp [habitScope] at hsc2
    · rw [if_neg hc2] at hsc2
      exact hc2 hsc2
  have h2 : deleteHabit (deleteHabit s uid hid).1 uid hid
      = ((deleteHabit s uid hid).1, "unable to delete habit") := by
    rw [h1]
    unfold deleteHabit
    rw [if_neg (by
      intro hc
      rw [hany2] at hc
      exact Bool.false_ne_true hc)]
  exact ⟨by rw [h1], by rw [h2], by rw [h2]⟩

/-- C2 witness for the amended statement: habit 1 of `db0`. -/
theorem habit_double_delete_witness :
    (deleteHabit db0 2 1).2 = "habit deleted successfully"
  ∧ (deleteHabit (deleteHabit db0 2 1).1 2 1).1 = (deleteHabit db0 2 1).1 := by
  have h := habit_double_delete db0 2 1 habitA (by decide) (by decide)
  exact ⟨h.1, h.2.2⟩

/-- C6: a tag whose first id match exists, is live and has
`createdById = NULL` makes both `deleteTag` and `updateTag` reject with the
400 system-tag domain error — distinct from the 404 "habit tag not found" —
for every actor, with the state unchanged. -/
theorem system_tag_immutable (s : DB) (uid tid : Nat) (name color : Option String)
    (t0 : Tag)
    (hfind : s.tags.find? (fun t => t.id = tid) = some t0)
    (hlive : t0.deletedAt = none)
    (hsys : t0.createdById = none) :
    deleteTag s uid tid
      = (s, .error ⟨400, "system default habit tags cannot be deleted by users"⟩)
  ∧ updateTag s uid tid name color
      = (s, .error ⟨400, "system default habit tags cannot be updated by users"⟩)
  ∧ ErrResp.mk 400 "system default habit tags cannot be deleted by users"
      ≠ ErrResp.mk 404 "habit tag not found"
  ∧ ErrResp.mk 400 "system default habit tags cannot be updated by users"
      ≠ ErrResp.mk 404 "habit tag not found" := by
  refine ⟨?_, ?_, by decide, by decide⟩
  · unfold deleteTag
    rw [hfind]
    simp [hlive, hsys]
  · have hfind2 : s.tags.find? (fun t => t.id = tid && t.deletedAt = none) = some t0 :=
      find?_and_of_find? s.tags (fun t => t.id = tid) (fun t => t.deletedAt = none) t0
        hfind (by simp [hlive])
    unfold updateTag
    rw [hfind2]
    simp [hsys]

/-- C6 witness: the system tag 12 of `db0`, attempted by actor 1. -/
theorem system_tag_immutable_witness :
    deleteTag db0 1 12
      = (db0, .error ⟨400, "system default habit tags cannot be deleted by users"⟩)
  ∧ updateTag db0 1 12 (some "z") none
      = (db0, .error ⟨400, "system default habit tags cannot be updated by users"⟩) := by
  have h := system_tag_immutable db0 1 12 (some "z") none tagS
    (by decide) (by decide) (by decide)
  exact ⟨h.1, h.2.1⟩

/-- C1 evaluation: in `db0` actor 1 owns no habit at all, yet an update
request for habit 1 (owned by user 2) that carries only `tagIds` deletes habit
1's existing association row and inserts a new one for it. -/
theorem update_unowned_habit_mutates_associations :
    db0.habits.all (fun h => !(h.userId = some 1)) = true
  ∧ db0.habitTags = [htA]
  ∧ htA.habitId = some 1
  ∧ (updateHabit db0 1 1 HabitPatch.empty (some [11])).1.habitTags
      = [{ id := 20, habitId := some 1, tagId := some 11, createdAt := 7,
           deletedAt := none }] := by decide

/-- C7 evaluation: `getUserTagById` hands actor 1 both user 2's personal tag
10 and the soft-deleted tag 13, though both fail the tag read filter for
actor 1. -/
theorem tag_read_by_id_ignores_scope :
    getUserTagById db0 1 10 = .ok (tagView db0 tagP)
  ∧ tagReadScope 1 tagP = false
  ∧ getUserTagById db0 1 13 = .ok (tagView db0 tagD)
  ∧ tagReadScope 1 tagD = false := by
  exact ⟨rfl, by decide, rfl, by decide⟩

lemma rowsForHabit_no_assoc (s : DB) (h : Habit)
    (hno : ∀ ht ∈ s.habitTags, ¬(ht.habitId = some h.id)) :
    rowsForHabit s h = [{ habit := h, tag := none }] := by
  unfold rowsForHabit
  rw [List.filter_eq_nil_iff.2 (fun ht hht => by simpa using hno ht hht)]
  rfl

/-- A scoped single-habit read of a state holding no association row for the
habit returns the habit with zero tags. -/
lemma habitDetails_no_tags (s : DB) (uid hid : Nat)
    (hno : ∀ ht ∈ s.habitTags, ¬(ht.habitId = some hid))
    (hex : ∃ h ∈ s.habits, habitScope uid hid h = true) :
    ∃ e, habitDetails s uid hid = some e ∧ e.tags = [] := by
  rcases hex with ⟨h0, hmem, hsc⟩
  have hall : ∀ r ∈ habitJoin s (habitScope uid hid), r.habit.id = hid ∧ r.tag = none := by
    intro r hr
    rcases List.mem_flatMap.1 hr with ⟨h, hh, hrh⟩
    have hsch : habitScope uid hid h = true := (List.mem_filter.1 hh).2
    have hidh : h.id = hid := habitScope_id uid hid h hsch
    rw [rowsForHabit_no_assoc s h (fun ht hht => by rw [hidh]; exact hno ht hht)] at hrh
    rcases List.mem_singleton.1 hrh with rfl
    exact ⟨hidh, rfl⟩
  have hne : habitJoin s (habitScope uid hid) ≠ [] := by
    have hmem2 : ({ habit := h0, tag := none } : JoinRow) ∈ habitJoin s (habitScope uid hid) := by
      apply List.mem_flatMap.2
      refine ⟨h0, List.mem_filter.2 ⟨hmem, hsc⟩, ?_⟩
      rw [rowsForHabit_no_assoc s h0 (fun ht hht => by
        rw [habitScope_id uid hid h0 hsc]
        exact hno ht hht)]
      exact List.mem_singleton.2 rfl
    exact List.ne_nil_of_mem hmem2
  rcases habit_read_single (habitJoin s (habitScope uid hid)) hid hne
      (fun r hr => (hall r hr).1) with ⟨e, hfind, htags⟩
  refine ⟨e, hfind, ?_⟩
  rw [htags, List.filterMap_eq_nil_iff]
  intro r hr
  rw [(hall r hr).2]

/-- C5: for an existing, owned, live habit: an update whose tag-id list is
present and explicitly empty deletes every association row for the habit and
inserts none, so the response's re-read returns the habit with zero tags;
an update with the tag field omitted leaves the association table untouched. -/
theorem update_tagset_empty_or_omitted (s : DB) (uid hid : Nat) (p : HabitPatch)
    (h0 : Habit) (hmem : h0 ∈ s.habits) (hsc : habitScope uid hid h0 = true) :
    (∃ e, (updateHabit s uid hid p (some [])).2 = .ok (some e) ∧ e.tags = []
        ∧ (updateHabit s uid hid p (some [])).1.habitTags
            = s.habitTags.filter (fun ht => !(ht.habitId = some hid)))
  ∧ (updateHabit s uid hid p none).1.habitTags = s.habitTags := by
  have hany : s.habits.any (habitScope uid hid) = true :=
    List.any_eq_true.2 ⟨h0, hmem, hsc⟩
  have hguard : ¬((p.nonEmpty && !(s.habits.any (habitScope uid hid))) = true) := by
    intro hc
    rw [hany] at hc
    simp at hc
  constructor
  · have hcomp : updateHabit s uid hid p (some []) =
        ({ s with
            habits := if p.nonEmpty then s.habits.map (fun h =>
                if habitScope uid hid h then applyPatch p s.now h else h)
              else s.habits,
            habitTags := s.habitTags.filter (fun ht => !(ht.habitId = some hid)) },
         .ok (habitDetails { s with
            habits := if p.nonEmpty then s.habits.map (fun h =>
                if habitScope uid hid h then applyPatch p s.now h else h)
              else s.habits,
            habitTags := s.habitTags.filter (fun ht => !(ht.habitId = some hid)) } uid hid)) := by
      unfold updateHabit
      rw [if_neg hguard]
      rfl
    have hex2 : ∃ h2 ∈ (if p.nonEmpty then s.habits.map (fun h =>
        if habitScope uid hid h then applyPatch p s.now h else h) else s.habits),
        habitScope uid hid h2 = true := by
      by_cases hpe : p.nonEmpty = true
      · rw [if_pos hpe]
        refine ⟨_, List.mem_map_of_mem
          (fun h => if habitScope uid hid h then applyPatch p s.now h else h) hmem, ?_⟩
        dsimp only
        rw [if_pos hsc, habitScope_applyPatch]
        exact hsc
      · rw [if_neg hpe]
        exact ⟨h0, hmem, hsc⟩
    have hno2 : ∀ ht ∈ s.habitTags.filter (fun ht => !(ht.habitId = some hid)),
        ¬(ht.habitId = some hid) := by
      intro ht hht
      have := (List.mem_filter.1 hht).2
      simpa using this
    rcases habitDetails_no_tags { s with
        habits := if p.nonEmpty then s.habits.map (fun h =>
            if habitScope uid hid h then applyPatch p s.now h else h)
          else s.habits,
        habitTags := s.habitTags.filter (fun ht => !(ht.habitId = some hid)) } uid hid
      hno2 hex2 with ⟨e, hdet, htags⟩
    refine ⟨e, ?_, htags, ?_⟩
    · rw [hcomp]
      dsimp only
      rw [hdet]
    · rw [hcomp]
  · unfold updateHabit
    rw [if_neg hguard]

/-- C5 witness: emptying and omitting the tag list on habit 1 of `db0`. -/
theorem update_tagset_empty_or_omitted_witness :
    (updateHabit db0 2 1 HabitPatch.empty (some [])).1.habitTags = []
  ∧ (updateHabit db0 2 1 HabitPatch.empty none).1.habitTags = db0.habitTags := by
  have h := update_tagset_empty_or_omitted db0 2 1 HabitPatch.empty habitA
    (by decide) (by decide)
  exact ⟨by decide, h.2⟩

/-- C10: for every database state, request and collaborator functions, the
`user` object of any success payload of register, login, getUserDetails or
updateUser has its password field removed. -/
theorem no_password_in_success_payload
    (hash : String → String) (tok : UserView → String) (cmp : String → String → Bool)
    (s : DB) (email pw userName : String) (firstName lastName : Option String)
    (uid : Nat) :
    (∀ v t, (register hash tok s email pw userName firstName lastName).2 = .ok (v, t) →
      v.password = none)
  ∧ (∀ v t, login cmp tok s email pw = .ok (v, t) → v.password = none)
  ∧ (∀ v, getUserDetails s uid = .ok v → v.password = none)
  ∧ (∀ v, (updateUser s uid firstName lastName).2 = .ok v → v.password = none) := by
  refine ⟨?_, ?_, ?_, ?_⟩
  · intro v t h
    unfold register at h
    split at h
    · simp at h
    · simp only [Except.ok.injEq, Prod.mk.injEq] at h
      rw [← h.1]
      rfl
  · intro v t h
    unfold login at h
    cases hf : s.users.find? (fun u => u.email = email && u.deletedAt = none) with
    | none => rw [hf] at h; simp at h
    | some u =>
      rw [hf] at h
      dsimp only at h
      split at h
      · simp at h
      · simp only [Except.ok.injEq, Prod.mk.injEq] at h
        rw [← h.1]
        rfl
  · intro v h
    unfold getUserDetails at h
    cases hf : s.users.find? (fun u => u.id = uid) with
    | none => rw [hf] at h; simp at h
    | some u =>
      rw [hf] at h
      simp only [Except.ok.injEq] at h
      rw [← h]
      rfl
  · intro v h
    unfold updateUser at h
    dsimp only at h
    cases hf : (s.users.map (fun u =>
        if u.id = uid then applyUserPatch firstName lastName s.now u else u)).find?
        (fun u => u.id = uid) with
    | none =>
      rw [hf] at h
      simp at h
    | some u =>
      rw [hf] at h
      dsimp only at h
      simp only [Except.ok.injEq] at h
      rw [← h]
      rfl

/-- C10 witness: the user payload of a concrete successful `getUserDetails`
carries no password. -/
theorem no_password_in_success_payload_witness :
    (stripPassword (toUserView userA)).password = none :=
  (no_password_in_success_payload (fun x => x) (fun _ => "t") (fun a b => a == b)
    db0 "e" "p" "n" none none 2).2.2.1
    (stripPassword (toUserView userA)) rfl

lemma mkHabitTags_habitId (hid now : Nat) :
    ∀ (l : List Nat) (base : Nat), ∀ ht ∈ mkHabitTags base hid now l,
      ht.habitId = some hid := by
  intro l
  induction l with
  | nil =>
    intro base ht h
    cases h
  | cons a as ih =>
    intro base ht h
    rw [mkHabitTags] at h
    rcases List.mem_cons.1 h with rfl | h2
    · rfl
    · exact ih (base + 1) ht h2

lemma mkHabitTags_tagIds (hid now : Nat) :
    ∀ (l : List Nat) (base : Nat),
      (mkHabitTags base hid now l).map HabitTag.tagId = l.map some := by
  intro l
  induction l with
  | nil => intro base; rfl
  | cons a as ih =>
    intro base
    rw [mkHabitTags, List.map_cons, List.map_cons, ih (base + 1)]

lemma mkHabitTags_ne_nil (base hid now : Nat) (l : List Nat) (h : l ≠ []) :
    mkHabitTags base hid now l ≠ [] := by
  cases l with
  | nil => exact absurd rfl h
  | cons a as => simp [mkHabitTags]

lemma joinTags_of_unique (ts : List Tag) (a : Nat) (ht : HabitTag)
    (hta : ht.tagId = some a)
    (hc : ts.countP (fun t => t.id = a) = 1) :
    ∃ t0, joinTags ts ht = [some t0] ∧ t0.id = a := by
  have hfe : ts.filter (fun t => ht.tagId = some t.id) = ts.filter (fun t => t.id = a) := by
    apply List.filter_congr
    intro t _
    rw [hta]
    simp [eq_comm]
  have hlen : (ts.filter (fun t => t.id = a)).length = 1 := by
    rw [← List.countP_eq_length_filter]
    exact hc
  rcases List.length_eq_one.1 hlen with ⟨t0, ht0⟩
  have ht0mem : t0 ∈ ts.filter (fun t => t.id = a) := by
    rw [ht0]
    exact List.mem_singleton.2 rfl
  have ht0a : t0.id = a := by simpa using (List.mem_filter.1 ht0mem).2
  refine ⟨t0, ?_, ht0a⟩
  unfold joinTags
  rw [hfe, ht0]
  rfl

lemma create_rows_props (ts : List Tag) (h : Habit) (hid now : Nat) :
    ∀ (l : List Nat) (base : Nat),
      (∀ a ∈ l, ts.countP (fun t => t.id = a) = 1) →
      (∀ r ∈ (mkHabitTags base hid now l).flatMap
          (fun ht => (joinTags ts ht).map (fun t => ({ habit := h, tag := t } : JoinRow))),
        r.habit = h)
    ∧ (((mkHabitTags base hid now l).flatMap
          (fun ht => (joinTags ts ht).map (fun t => ({ habit := h, tag := t } : JoinRow)))).filterMap
        JoinRow.tag).map Tag.id = l := by
  intro l
  induction l with
  | nil =>
    intro base hun
    constructor
    · intro r hr
      rw [mkHabitTags] at hr
      cases hr
    · rfl
  | cons a as ih =>
    intro base hun
    rcases joinTags_of_unique ts a
        { id := base, habitId := some hid, tagId := some a,
          createdAt := now, deletedAt := none }
        rfl (hun a (List.mem_cons_self a as)) with ⟨t0, hj, ht0a⟩
    rcases ih (base + 1) (fun x hx => hun x (List.mem_cons_of_mem a hx)) with ⟨ih1, ih2⟩
    constructor
    · intro r hr
      rw [mkHabitTags, List.flatMap_cons, hj] at hr
      rcases List.mem_append.1 hr with h1 | h2
      · rw [List.map_cons, List.map_nil] at h1
        rcases List.mem_singleton.1 h1 with rfl
        rfl
      · exact ih1 r h2
    · rw [mkHabitTags, List.flatMap_cons, hj, List.map_cons, List.map_nil,
          List.filterMap_append, List.map_append, ih2]
      simp [ht0a]

/-- C3 counterexample: creating a habit with tag-id list [10, 10, 11] (id 10
supplied twice) stores the duplicate live pair, and the subsequent read
returns tag 10 twice — not deduplicated and not just [10, 11]. -/
theorem create_duplicate_tags_counterexample :
    ((getHabitById (createNewHabit db0 2 reqC3).1 2 (createNewHabit db0 2 reqC3).2.id).map
        (fun e => e.tags.map Tag.id)) = some [10, 10, 11]
  ∧ ((createNewHabit db0 2 reqC3).1.habitTags.filter
        (fun ht => ht.habitId = some (createNewHabit db0 2 reqC3).2.id
          && ht.tagId = some 10 && ht.deletedAt = none)).length = 2 := by decide

/-- C3 amended: creating a habit with a non-empty tag-id list (each id naming
exactly one tag row, the new ids fresh) stores one association row per
supplied id in supplied order — so a repeated id yields duplicate live
(habitId, tagId) pairs — and reading the habit afterwards returns one tag
entry per supplied id, in supplied order, duplicates included. -/
theorem create_with_tags_read_back (s : DB) (uid : Nat) (r : CreateHabitReq)
    (l : List Nat)
    (htl : r.tagIds = some l) (hne : l ≠ [])
    (hfh : ∀ h ∈ s.habits, ¬(h.id = s.nextId))
    (hft : ∀ ht ∈ s.habitTags, ¬(ht.habitId = some s.nextId))
    (htags : ∀ a ∈ l, s.tags.countP (fun t => t.id = a) = 1) :
    (∃ e, getHabitById (createNewHabit s uid r).1 uid (createNewHabit s uid r).2.id = some e
       ∧ e.tags.map Tag.id = l)
  ∧ ((createNewHabit s uid r).1.habitTags.filter
        (fun ht => ht.habitId = some (createNewHabit s uid r).2.id)).map HabitTag.tagId
      = l.map some := by
  have hlen : l.length > 0 := by
    cases l with
    | nil => exact absurd rfl hne
    | cons a as => simp
  have hid_eq : (createNewHabit s uid r).2.id = s.nextId := rfl
  have hhabitTags : (createNewHabit s uid r).1.habitTags
      = s.habitTags ++ mkHabitTags (s.nextId + 1) s.nextId s.now l := by
    unfold createNewHabit
    rw [htl]
    dsimp only
    rw [if_pos hlen]
  have htags_filter : (createNewHabit s uid r).1.habitTags.filter
      (fun ht => ht.habitId = some s.nextId)
      = mkHabitTags (s.nextId + 1) s.nextId s.now l := by
    rw [hhabitTags, List.filter_append,
        List.filter_eq_nil_iff.2 (fun ht hht => by simpa using hft ht hht),
        List.filter_eq_self.2 (fun ht hht => by
          simp [mkHabitTags_habitId s.nextId s.now l (s.nextId + 1) ht hht]),
        List.nil_append]
  constructor
  · -- the re-read
    have hhabits : (createNewHabit s uid r).1.habits
        = s.habits ++ [(createNewHabit s uid r).2] := rfl
    have hscope : habitScope uid s.nextId (createNewHabit s uid r).2 = true := by
      simp [habitScope, hid_eq, show (createNewHabit s uid r).2.userId = some uid from rfl,
        show (createNewHabit s uid r).2.deletedAt = none from rfl]
    have hfilter : (createNewHabit s uid r).1.habits.filter (habitScope uid s.nextId)
        = [(createNewHabit s uid r).2] := by
      rw [hhabits, List.filter_append,
          List.filter_eq_nil_iff.2 (fun h hh => by
            rw [habitScope_of_id_ne uid s.nextId h (hfh h hh)]
            simp),
          List.nil_append, List.filter_cons, if_pos hscope]
      rfl
    have hrfh : rowsForHabit (createNewHabit s uid r).1 (createNewHabit s uid r).2
        = (mkHabitTags (s.nextId + 1) s.nextId s.now l).flatMap
            (fun ht => (joinTags s.tags ht).map
              (fun t => ({ habit := (createNewHabit s uid r).2, tag := t } : JoinRow))) := by
      unfold rowsForHabit
      rw [show ((createNewHabit s uid r).1.habitTags.filter
            (fun ht => ht.habitId = some (createNewHabit s uid r).2.id))
          = mkHabitTags (s.nextId + 1) s.nextId s.now l from htags_filter]
      rw [if_neg (by
        simp only [List.isEmpty_iff]
        exact mkHabitTags_ne_nil (s.nextId + 1) s.nextId s.now l hne)]
      rfl
    rcases create_rows_props s.tags (createNewHabit s uid r).2 s.nextId s.now l
        (s.nextId + 1) htags with ⟨hp1, hp2⟩
    have hjoin : habitJoin (createNewHabit s uid r).1 (habitScope uid s.nextId)
        = (mkHabitTags (s.nextId + 1) s.nextId s.now l).flatMap
            (fun ht => (joinTags s.tags ht).map
              (fun t => ({ habit := (createNewHabit s uid r).2, tag := t } : JoinRow))) := by
      unfold habitJoin
      rw [hfilter, List.flatMap_cons, List.flatMap_nil, List.append_nil, hrfh]
    have hrne : (mkHabitTags (s.nextId + 1) s.nextId s.now l).flatMap
        (fun ht => (joinTags s.tags ht).map
          (fun t => ({ habit := (createNewHabit s uid r).2, tag := t } : JoinRow))) ≠ [] := by
      intro hc
      rw [hc] at hp2
      simp only [List.filterMap_nil, List.map_nil] at hp2
      exact hne hp2.symm
    rcases habit_read_single _ s.nextId hrne (fun row hrow => by
        rw [hp1 row hrow]
        rfl) with ⟨e, hfind, hetags⟩
    refine ⟨e, ?_, ?_⟩
    · show habitDetails (createNewHabit s uid r).1 uid (createNewHabit s uid r).2.id = some e
      unfold habitDetails
      rw [show (createNewHabit s uid r).2.id = s.nextId from rfl, hjoin]
      exact hfind
    · rw [hetags, hp2]
  · rw [show some (createNewHabit s uid r).2.id = some s.nextId from rfl, htags_filter]
    exact mkHabitTags_tagIds s.nextId s.now l (s.nextId + 1)

/-- C3 witness for the amended statement: the duplicate-carrying request on
`db0` stores association rows [10, 10, 11] in order. -/
theorem create_with_tags_read_back_witness :
    ((createNewHabit db0 2 reqC3).1.habitTags.filter
        (fun ht => ht.habitId = some (createNewHabit db0 2 reqC3).2.id)).map HabitTag.tagId
      = [some 10, some 10, some 11] := by
  have h := create_with_tags_read_back db0 2 reqC3 [10, 10, 11] rfl (by decide)
    (by decide) (by decide) (by decide)
  rw [h.2]
  rfl

end HabitApi
